import Mathlib

/-!
Verification of the ACloserLook risk-assessment backend.

This file gives a shallow embedding, in Lean 4, of the pipeline code in
`backend/utils/risk_scorer.py` and `backend/utils/vector_search.py`, and
proves (or refutes) the specification claims about it.

Modelling conventions:
* Python strings are Lean `String`; `str.lower` is modelled by mapping
  `Char.toLower` over the characters (the keyword patterns involved are
  pure ASCII, where the two agree).
* Python `None` for an optional string argument is `Option.none`.
* Exceptions are modelled with `Except Unit`: `.error ()` stands for the
  exception the corresponding Python path raises (the exception class is
  noted in each definition's comment).
* JSON values (the output of `json.loads`) are modelled by an inductive
  `Json` type; Python dicts are association lists without duplicate-key
  insertion (assignment replaces in place, new keys append), which is the
  observable behaviour of `dict`.
-/

/-- Tests whether the first character list is a prefix of the second
(used to implement Python's `in` substring operator). -/
def strStarts : List Char → List Char → Bool
  | [], _ => true
  | _ :: _, [] => false
  | a :: as, b :: bs => a == b && strStarts as bs

/-- Tests whether `pat` occurs contiguously inside the second list:
Python's `pat in text` for strings. -/
def hasSub (pat : List Char) : List Char → Bool
  | [] => strStarts pat []
  | c :: rest => strStarts pat (c :: rest) || hasSub pat rest

/-- Characters of `s.lower()` (ASCII lowering, which coincides with
Python `str.lower` on the ASCII keywords used by the scorer). -/
def lowerChars (s : String) : List Char := s.data.map Char.toLower

/-- Python `kw in s.lower()` for a lowercase ASCII keyword `kw`. -/
def containsKw (s : String) (kw : String) : Bool := hasSub kw.data (lowerChars s)

/-- Embeds `_normalize_risk_level` (risk_scorer.py lines 297-320).
`none` models a Python `None` argument; `none` and `""` are the falsy
inputs caught by the `if not llm_risk_level` guard. -/
def normalize_risk_level (llm_risk_level : Option String) : String :=
  match llm_risk_level with
  | none => "Caution"
  | some s =>
    if s = "" then "Caution"
    else if containsKw s "low" && containsKw s "safe" then "Low Risk"
    else if containsKw s "caution" || containsKw s "irritat" then "Caution"
    else if containsKw s "high" || containsKw s "harm" then "High Risk"
    else "Caution"

/-- JSON values, as produced by `json.loads` on the generative model's
response text. Numbers are modelled as integers (the precise numeric
value never matters to the code under verification). -/
inductive Json where
  | null
  | bool (b : Bool)
  | num (n : Int)
  | str (s : String)
  | arr (xs : List Json)
  | obj (fields : List (String × Json))
deriving BEq

/-- Python `k in d` for a dict `d` (association list, no duplicate keys
from `json.loads`). -/
def hasKey (d : List (String × Json)) (k : String) : Bool :=
  d.any (fun p => p.1 == k)

/-- Python `d.get(k, dflt)`. -/
def getD (d : List (String × Json)) (k : String) (dflt : Json) : Json :=
  match d.find? (fun p => p.1 == k) with
  | some p => p.2
  | none => dflt

/-- Python `d[k] = v` on a dict: replaces the value in place when the
key exists, appends the pair otherwise. -/
def setKey (d : List (String × Json)) (k : String) (v : Json) :
    List (String × Json) :=
  if hasKey d k then d.map (fun p => if p.1 == k then (k, v) else p)
  else d ++ [(k, v)]

/-- Python `k in j` for an arbitrary JSON value `j`: key membership for
dicts, element equality for lists, substring test for strings, and a
`TypeError` (modelled as `.error ()`) for non-iterable values. -/
def pyContains (j : Json) (k : String) : Except Unit Bool :=
  match j with
  | .obj d => .ok (hasKey d k)
  | .arr xs => .ok (xs.any (fun x => match x with | .str s => s == k | _ => false))
  | .str s => .ok (hasSub k.data s.data)
  | _ => .error ()

/-- Python `j[k] = v` for an arbitrary JSON value: succeeds only on a
dict; any other value raises `TypeError` (modelled as `.error ()`). -/
def pySetItem (j : Json) (k : String) (v : Json) : Except Unit Json :=
  match j with
  | .obj d => .ok (.obj (setKey d k v))
  | _ => .error ()

/-- The conservative default assessment synthesized when the model's
response text is not valid JSON (risk_scorer.py lines 282-286). -/
def defaultAssessment : Json :=
  .obj [("overall_risk_level", .str "Caution (Irritating)"),
        ("explanation", .str "Assessment requires manual review"),
        ("ingredient_details", .arr [])]

/-- Embeds the response-validation block of `_generate_llm_assessment`
(risk_scorer.py lines 262-277): backfills each of the three required
keys when missing. An exception raised here (a `TypeError` from the
`in` test or the assignment on a non-dict JSON value) is not a
`json.JSONDecodeError`, so it escapes the inner handler and is
converted to `RiskScorerError` by the function's outer handler. -/
def validateAssessment (j : Json) : Except Unit Json :=
  match pyContains j "overall_risk_level" with
  | .error e => .error e
  | .ok c1 =>
    match (if c1 then .ok j
           else pySetItem j "overall_risk_level" (.str "Caution (Irritating)")) with
    | .error e => .error e
    | .ok j1 =>
      match pyContains j1 "explanation" with
      | .error e => .error e
      | .ok c2 =>
        match (if c2 then .ok j1
               else pySetItem j1 "explanation"
                 (.str "Unable to generate detailed explanation")) with
        | .error e => .error e
        | .ok j2 =>
          match pyContains j2 "ingredient_details" with
          | .error e => .error e
          | .ok c3 =>
            match (if c3 then .ok j2
                   else pySetItem j2 "ingredient_details" (.arr [])) with
            | .error e => .error e
            | .ok j3 => .ok j3

/-- Outcome of the `client.chat.completions.create` call made by
`_generate_llm_assessment`, as seen after response-text extraction and
`json.loads`: the backend call may raise `APIError` (`apiFailure`) or
some other exception (`otherFailure`); on success the response text
either fails to parse (`responseText none`, i.e. `json.JSONDecodeError`)
or parses to a JSON value (`responseText (some j)`). -/
inductive LLMOutcome where
  | apiFailure
  | otherFailure
  | responseText (parsed : Option Json)

/-- Embeds `_generate_llm_assessment` (risk_scorer.py lines 210-294)
from the backend call's outcome on: `APIError` and unexpected
exceptions become `RiskScorerError` (`.error ()`); an unparseable
response yields the conservative default; a parsed response is
validated/backfilled, where a `TypeError` on a non-dict value also
becomes `RiskScorerError`. -/
def generate_llm_assessment (outcome : LLMOutcome) : Except Unit Json :=
  match outcome with
  | .apiFailure => .error ()
  | .otherFailure => .error ()
  | .responseText none => .ok defaultAssessment
  | .responseText (some j) => validateAssessment j

/-- Normal form of the backfilled dict produced by `validateAssessment`
on a JSON object: each required key missing from `d` is appended in
order with its conservative default. -/
def backfillKeys (d : List (String × Json)) : List (String × Json) :=
  let d1 := if hasKey d "overall_risk_level" then d
            else d ++ [("overall_risk_level", Json.str "Caution (Irritating)")]
  let d2 := if hasKey d1 "explanation" then d1
            else d1 ++ [("explanation", Json.str "Unable to generate detailed explanation")]
  if hasKey d2 "ingredient_details" then d2
  else d2 ++ [("ingredient_details", Json.arr [])]

/-- Embeds one iteration of the loop in `_extract_risky_ingredients`
(risk_scorer.py lines 337-349): a non-dict entry is skipped; on a dict
entry, `item.get('risk_level', '').lower()` raises (`AttributeError`,
modelled `.error ()`) when the stored value is not a string, and
otherwise the entry is kept exactly when the lowered string contains
"medium" or "high". -/
def riskyFromItem (item : Json) : Except Unit (Option Json) :=
  match item with
  | .obj d =>
    match getD d "risk_level" (.str "") with
    | .str rl =>
      if containsKw rl "medium" || containsKw rl "high" then
        .ok (some (.obj [("name", getD d "name" (.str "Unknown")),
                         ("risk_level", getD d "risk_level" (.str "Unknown")),
                         ("reason", getD d "reason" (.str "No details available"))]))
      else .ok none
    | _ => .error ()
  | _ => .ok none

/-- Embeds `_extract_risky_ingredients` (risk_scorer.py lines 323-351)
on a list of ingredient-detail entries. -/
def extract_risky_ingredients : List Json → Except Unit (List Json)
  | [] => .ok []
  | item :: rest =>
    match riskyFromItem item with
    | .error e => .error e
    | .ok o =>
      match extract_risky_ingredients rest with
      | .error e => .error e
      | .ok tail =>
        .ok (match o with | some r => r :: tail | none => tail)

/-- Entries whose `risk_level` value (when the entry is a dict) is a
string — the inputs on which the extraction cannot raise. -/
def riskStrTyped (j : Json) : Bool :=
  match j with
  | .obj d => (match getD d "risk_level" (.str "") with | .str _ => true | _ => false)
  | _ => true

/-- The pure selection function the extraction computes on well-typed
entries. -/
def riskyProj (j : Json) : Option Json :=
  match j with
  | .obj d =>
    match getD d "risk_level" (.str "") with
    | .str rl =>
      if containsKw rl "medium" || containsKw rl "high" then
        some (.obj [("name", getD d "name" (.str "Unknown")),
                    ("risk_level", getD d "risk_level" (.str "Unknown")),
                    ("reason", getD d "reason" (.str "No details available"))])
      else none
    | _ => none
  | _ => none

/-- A knowledge-base search result as returned by the vector search
(`id, name, description, risk_level, similarity_score`); scores are
modelled over the rationals. -/
structure KBResult where
  id : Int
  name : String
  description : String
  risk_level : String
  similarity_score : ℚ
deriving DecidableEq

/-- Inner deduplication loop of `_search_all_ingredients` (risk_scorer.py
lines 191-194): appends each result whose knowledge-base id has not been
seen, recording seen ids. -/
def dedupInsert : List KBResult → List KBResult × List Int → List KBResult × List Int
  | [], acc => acc
  | r :: rest, acc =>
    if acc.2.contains r.id then dedupInsert rest acc
    else dedupInsert rest (acc.1 ++ [r], acc.2 ++ [r.id])

/-- Outer loop of `_search_all_ingredients` (risk_scorer.py lines
182-199): each ingredient is searched with a per-ingredient cap of 3;
a `VectorSearchError` for one ingredient is caught and the loop
continues with the next ingredient. -/
def search_all_ingredients_loop
    (search : String → Nat → Except Unit (List KBResult)) :
    List String → List KBResult × List Int → List KBResult × List Int
  | [], acc => acc
  | ing :: rest, acc =>
    match search ing 3 with
    | .ok rs => search_all_ingredients_loop search rest (dedupInsert rs acc)
    | .error _ => search_all_ingredients_loop search rest acc

/-- Embeds `_search_all_ingredients` (risk_scorer.py lines 161-207):
returns the merged, id-deduplicated context list. The function never
raises: per-ingredient `VectorSearchError` is absorbed by the inner
handler, and the outer handler converts anything else to an empty
list. -/
def search_all_ingredients
    (search : String → Nat → Except Unit (List KBResult))
    (ingredient_names : List String) : List KBResult :=
  (search_all_ingredients_loop search ingredient_names ([], [])).1

/-- A row of the `ingredients_library` table as fetched by the fallback
scan; the `embedding` column is nullable. -/
structure KBRow where
  id : Int
  name : String
  description : String
  risk_level : String
  embedding : Option (List ℚ)

/-- Python `sum(a * b for a, b in zip(vec1, vec2))`. -/
def dot_product (vec1 vec2 : List ℚ) : ℚ :=
  (List.zipWith (fun a b => a * b) vec1 vec2).sum

/-- Python `sum(a ** 2 for a in vec)`. -/
def sum_sq (vec : List ℚ) : ℚ := (vec.map (fun a => a * a)).sum

/-- Magnitude `sum(a ** 2 for a in vec) ** 0.5`; the square root of the
backend's floating-point arithmetic is kept abstract as `sqrtFn`, since
no claim depends on its value — only on where it is zero. -/
def magnitude (sqrtFn : ℚ → ℚ) (vec : List ℚ) : ℚ := sqrtFn (sum_sq vec)

/-- Embeds `_cosine_similarity` (vector_search.py lines 329-350):
empty or length-mismatched vectors score 0.0; zero magnitude on either
side scores 0.0; otherwise the dot product is divided by the product of
the magnitudes. -/
def cosine_similarity (sqrtFn : ℚ → ℚ) (vec1 vec2 : List ℚ) : ℚ :=
  if vec1 = [] ∨ vec2 = [] ∨ vec1.length ≠ vec2.length then 0
  else if magnitude sqrtFn vec1 = 0 ∨ magnitude sqrtFn vec2 = 0 then 0
  else dot_product vec1 vec2 / (magnitude sqrtFn vec1 * magnitude sqrtFn vec2)

/-- Stable descending insertion: a new element goes after existing
elements with an equal or higher score, matching the stability of
Python's `list.sort(key=..., reverse=True)`. -/
def insertDesc (r : KBResult) : List KBResult → List KBResult
  | [] => [r]
  | x :: xs =>
    if r.similarity_score ≤ x.similarity_score then x :: insertDesc r xs
    else r :: x :: xs

/-- Stable sort by descending similarity score. -/
def sortDesc (l : List KBResult) : List KBResult :=
  l.foldl (fun acc r => insertDesc r acc) []

/-- The risk filter actually applied by `if risk_level_filter:` guards:
`None` and the empty string are falsy, so neither filters. -/
def filt_active (f : Option String) : Option String :=
  match f with
  | some s => if s = "" then none else some s
  | none => none

/-- Scoring/filter loop of `_fallback_search` (vector_search.py lines
303-318): rows with a falsy embedding (`None` or the empty list) are
skipped, the risk filter (when truthy) drops non-matching rows, and
each surviving row is scored by cosine similarity. -/
def fallback_scored (sqrtFn : ℚ → ℚ) (query_embedding : List ℚ)
    (risk_level_filter : Option String) (rows : List KBRow) : List KBResult :=
  rows.filterMap (fun row =>
    match row.embedding with
    | some emb =>
      if emb = [] then none
      else
        match filt_active risk_level_filter with
        | some f =>
          if row.risk_level ≠ f then none
          else some ⟨row.id, row.name, row.description, row.risk_level,
                     cosine_similarity sqrtFn query_embedding emb⟩
        | none => some ⟨row.id, row.name, row.description, row.risk_level,
                        cosine_similarity sqrtFn query_embedding emb⟩
    | none => none)

/-- Embeds `_fallback_search` (vector_search.py lines 269-326): a failed
table fetch raises `VectorSearchError`; an empty table yields `[]`;
otherwise rows are scored, sorted descending by similarity and
truncated to `limit`. -/
def fallback_search (sqrtFn : ℚ → ℚ) (tableOutcome : Except Unit (List KBRow))
    (query_embedding : List ℚ) (limit : Nat)
    (risk_level_filter : Option String) : Except Unit (List KBResult) :=
  match tableOutcome with
  | .error _ => .error ()
  | .ok rows =>
    if rows.isEmpty then .ok []
    else .ok ((sortDesc (fallback_scored sqrtFn query_embedding risk_level_filter rows)).take limit)

/-- Cache key of the result cache: the f-string
`"query:limit:filter"` is injective on these three components (the
filter repr contains no colon and the limit repr is all digits), so the
key is modelled as the triple itself. -/
abbrev CacheKey := String × Nat × Option String

/-- Mutable module state of vector_search.py observable by the claims:
the TTL result cache `_vector_search_cache` (entries carry their store
time; `cachetools.TTLCache` treats an entry as absent once
`now ≥ stored + ttl`; the maxsize-500 LRU eviction is not modelled as
no claim depends on capacity), and a counter of calls to
`generate_query_embedding`. -/
structure SearchState where
  cache : List (CacheKey × Nat × List KBResult)
  embed_calls : Nat

/-- TTL cache lookup at time `now` (ttl = 3600 seconds). -/
def lookupCache (c : List (CacheKey × Nat × List KBResult)) (k : CacheKey)
    (now : Nat) : Option (List KBResult) :=
  match c.find? (fun e => decide (e.1 = k)) with
  | some e => if now < e.2.1 + 3600 then some e.2.2 else none
  | none => none

/-- TTL cache store at time `now`: replaces the entry for an existing
key, appends otherwise. -/
def storeCache (c : List (CacheKey × Nat × List KBResult)) (k : CacheKey)
    (now : Nat) (v : List KBResult) : List (CacheKey × Nat × List KBResult) :=
  if c.any (fun e => decide (e.1 = k)) then
    c.map (fun e => if e.1 = k then (k, now, v) else e)
  else c ++ [(k, now, v)]

/-- External collaborators of `search_similar_ingredients`:
`embed` is `generate_query_embedding` (may raise `VectorSearchError`),
`rpc` is the Supabase `search_ingredients` RPC call with the query
embedding and `match_limit` (an exception selects the fallback path),
`table` is the fallback's full-table fetch, and `sqrtFn` abstracts the
floating-point square root used by the cosine score. -/
structure SearchEnv where
  sqrtFn : ℚ → ℚ
  embed : String → Except Unit (List ℚ)
  rpc : List ℚ → Nat → Except Unit (List KBResult)
  table : Except Unit (List KBRow)

/-- Limit validation (vector_search.py lines 198-200): out-of-range
values are replaced by the default 5 (`isinstance` failures behave the
same; the model keeps integer inputs). -/
def effLimit (limit : Int) : Nat :=
  if limit < 1 ∨ 20 < limit then 5 else limit.toNat

/-- Filter validation (vector_search.py lines 202-204): a **truthy**
value outside Low/Medium/High is nulled; `None` and the falsy empty
string pass through unchanged. -/
def effFilter (risk_level_filter : Option String) : Option String :=
  match risk_level_filter with
  | none => none
  | some f =>
    if f ≠ "" ∧ f ≠ "Low" ∧ f ≠ "Medium" ∧ f ≠ "High" then none else some f

/-- The result-cache key built from the validated parameters
(vector_search.py line 207). -/
def effKey (query : String) (limit : Int) (risk_level_filter : Option String) :
    CacheKey :=
  (query, effLimit limit, effFilter risk_level_filter)

/-- Body of `search_similar_ingredients` after parameter validation,
over the validated limit `l` and filter `filt`: consults the TTL cache,
otherwise generates the query embedding (counted in `embed_calls`),
attempts the RPC path (whose non-empty filtered results are cached),
and falls back to the table scan on an RPC exception. -/
def searchCore (env : SearchEnv) (now : Nat) (query : String)
    (l : Nat) (filt : Option String) (st : SearchState) :
    Except Unit (List KBResult) × SearchState :=
  let key : CacheKey := (query, l, filt)
  match lookupCache st.cache key now with
  | some v => (.ok v, st)
  | none =>
    let st1 : SearchState := ⟨st.cache, st.embed_calls + 1⟩
    match env.embed query with
    | .error _ => (.error (), st1)
    | .ok emb =>
      match env.rpc emb l with
      | .ok data =>
        let results :=
          match filt_active filt with
          | some f => data.filter (fun r => r.risk_level = f)
          | none => data
        if results = [] then (.ok [], st1)
        else (.ok results, ⟨storeCache st1.cache key now results, st1.embed_calls⟩)
      | .error _ => (fallback_search env.sqrtFn env.table emb l filt, st1)

/-- Embeds `search_similar_ingredients` (vector_search.py lines
175-266) as a state transformer: validates `limit` and
`risk_level_filter`, then runs the search body. -/
def search_similar_ingredients (env : SearchEnv) (now : Nat) (query : String)
    (limit : Int) (risk_level_filter : Option String) (st : SearchState) :
    Except Unit (List KBResult) × SearchState :=
  searchCore env now query (effLimit limit) (effFilter risk_level_filter) st

/-- Value of the `sensitivities` column of a profile row as handled by
`_fetch_user_sensitivities`: a delimited string, a native list
(elements modelled as strings; `str(s)` is the identity and Python
truthiness is non-emptiness), or anything else (including `null` and
the `.get` default), which normalizes to the empty list. -/
inductive StoredSens where
  | str (s : String)
  | list (xs : List String)
  | other

/-- Outcome of the profile-store query in `_fetch_user_sensitivities`:
the query may raise (connectivity, `.single()` not-found, any
exception), return a falsy `response.data`, or return a row. -/
inductive ProfileOutcome where
  | failure
  | noData
  | row (sens : StoredSens)

/-- Python whitespace characters recognised by `str.strip()` (the ASCII
ones; the inputs of interest are plain spaces). -/
def isPySpace (c : Char) : Bool :=
  c = ' ' ∨ c = '\t' ∨ c = '\n' ∨ c = '\r'

/-- Python `s.strip()`. -/
def pyStrip (s : String) : String :=
  ⟨((s.data.dropWhile isPySpace).reverse.dropWhile isPySpace).reverse⟩

/-- Splitting loop for Python `s.split(',')`: every comma starts a new
chunk, empty chunks included. -/
def splitCommaAux (cur : List Char) : List Char → List (List Char)
  | [] => [cur.reverse]
  | c :: rest =>
    if c = ',' then cur.reverse :: splitCommaAux [] rest
    else splitCommaAux (c :: cur) rest

/-- Python `s.split(',')`. -/
def pySplitComma (s : String) : List String :=
  (splitCommaAux [] s.data).map (fun l => ⟨l⟩)

/-- Embeds `_fetch_user_sensitivities` (risk_scorer.py lines 110-158).
The Bool component records whether the profile store was queried.
Empty and "anonymous" user ids short-circuit to the empty list; every
collaborator failure is caught and converted to the empty list (the
function is total — it models the catch-all `except Exception`
handler); a delimited string is split on commas, trimmed and cleaned
of empty entries; a native list drops falsy elements and trims the
rest. -/
def fetch_user_sensitivities (store : String → ProfileOutcome)
    (user_id : String) : List String × Bool :=
  if user_id = "" || user_id = "anonymous" then ([], false)
  else
    match store user_id with
    | .failure => ([], true)
    | .noData => ([], true)
    | .row sens =>
      match sens with
      | .str s => (((pySplitComma s).map pyStrip).filter (fun x => x ≠ ""), true)
      | .list xs => ((xs.filter (fun x => x ≠ "")).map pyStrip, true)
      | .other => ([], true)

/-- Python `j.get(k, dflt)` on an arbitrary value: raises
`AttributeError` (modelled `.error ()`) when `j` is not a dict. -/
def pyDictGet (j : Json) (k : String) (dflt : Json) : Except Unit Json :=
  match j with
  | .obj d => .ok (getD d k dflt)
  | _ => .error ()

/-- Applies `_normalize_risk_level` to the JSON value found under
`overall_risk_level`: a string value is normalized; a falsy value
(null, False, 0, empty list/dict) takes the `if not llm_risk_level`
branch and yields "Caution"; a truthy non-string raises
`AttributeError` at `.lower()` (modelled `.error ()`). -/
def normalizeValue (v : Json) : Except Unit String :=
  match v with
  | .str s => .ok (normalize_risk_level (some s))
  | .null => .ok "Caution"
  | .bool b => if b then .error () else .ok "Caution"
  | .num n => if n = 0 then .ok "Caution" else .error ()
  | .arr xs => if xs.isEmpty then .ok "Caution" else .error ()
  | .obj d => if d.isEmpty then .ok "Caution" else .error ()

/-- Applies `_extract_risky_ingredients` to the JSON value found under
`ingredient_details`: a list is processed entry by entry; iterating a
string or a dict yields only strings, none of which is a dict, so the
result is empty; a non-iterable value raises `TypeError` (modelled
`.error ()`). -/
def extractRiskyValue (v : Json) : Except Unit (List Json) :=
  match v with
  | .arr xs => extract_risky_ingredients xs
  | .str _ => .ok []
  | .obj _ => .ok []
  | _ => .error ()

/-- Response shape of `generate_risk_score` (risk_scorer.py lines
94-99). -/
structure RiskResponse where
  risk_level : String
  explanation : Json
  ingredients_found : List String
  risky_ingredients : List Json

/-- Response shape of `generate_risk_score_for_product` (risk_scorer.py
lines 404-408): no `ingredients_found` key. -/
structure ProductRiskResponse where
  risk_level : String
  explanation : Json
  risky_ingredients : List Json

/-- External collaborators of the risk-scoring orchestrator: the OCR
adapter outcome (`OCRError` or the extracted ingredient list), the
profile store, the vector search (per query string and limit), and the
generative-model call, whose outcome may depend on the prompt inputs
(scanned ingredients, sensitivities, retrieved context). -/
structure ScorerEnv where
  ocr : Except Unit (List String)
  profile : String → ProfileOutcome
  search : String → Nat → Except Unit (List KBResult)
  llm : List String → List String → List KBResult → LLMOutcome

/-- Embeds `generate_risk_score` (risk_scorer.py lines 35-107):
OCR failure is fatal (`RiskScorerError`); sensitivities and vector
context degrade softly; a `RiskScorerError` from the LLM step
propagates; the response is formatted with pythonic `.get` accesses
whose own failures the outer handler converts to `RiskScorerError`. -/
def generate_risk_score (env : ScorerEnv) (user_id : String) :
    Except Unit RiskResponse :=
  match env.ocr with
  | .error _ => .error ()
  | .ok scanned =>
    let sens := (fetch_user_sensitivities env.profile user_id).1
    let ctx := search_all_ingredients env.search scanned
    match generate_llm_assessment (env.llm scanned sens ctx) with
    | .error _ => .error ()
    | .ok assessment =>
      match pyDictGet assessment "overall_risk_level" (.str "Caution") with
      | .error _ => .error ()
      | .ok rlv =>
        match normalizeValue rlv with
        | .error _ => .error ()
        | .ok risk_level =>
          match pyDictGet assessment "explanation"
              (.str "Unable to generate assessment") with
          | .error _ => .error ()
          | .ok explanation =>
            match pyDictGet assessment "ingredient_details" (.arr []) with
            | .error _ => .error ()
            | .ok detv =>
              match extractRiskyValue detv with
              | .error _ => .error ()
              | .ok risky => .ok ⟨risk_level, explanation, scanned, risky⟩

/-- Embeds `generate_risk_score_for_product` (risk_scorer.py lines
354-417): identical to the image entry point but with the ingredient
list supplied directly (no OCR step) and no `ingredients_found` key;
`product_id` and `product_name` are only logged. -/
def generate_risk_score_for_product (env : ScorerEnv) ( _product_id : Int)
    ( _product_name : String) (ingredients : List String) (user_id : String) :
    Except Unit ProductRiskResponse :=
  let sens := (fetch_user_sensitivities env.profile user_id).1
  let ctx := search_all_ingredients env.search ingredients
  match generate_llm_assessment (env.llm ingredients sens ctx) with
  | .error _ => .error ()
  | .ok assessment =>
    match pyDictGet assessment "overall_risk_level" (.str "Caution") with
    | .error _ => .error ()
    | .ok rlv =>
      match normalizeValue rlv with
      | .error _ => .error ()
      | .ok risk_level =>
        match pyDictGet assessment "explanation"
            (.str "Unable to generate assessment") with
        | .error _ => .error ()
        | .ok explanation =>
          match pyDictGet assessment "ingredient_details" (.arr []) with
          | .error _ => .error ()
          | .ok detv =>
            match extractRiskyValue detv with
            | .error _ => .error ()
            | .ok risky => .ok ⟨risk_level, explanation, risky⟩

/-- The post-filter contract a result list satisfies for a validated
filter value: when the filter is truthy, every result's risk_level
equals it. -/
def matchesFilter (filt : Option String) (rs : List KBResult) : Prop :=
  match filt_active filt with
  | some f => ∀ r ∈ rs, r.risk_level = f
  | none => True

/-- Invariant of the result cache: every entry respects the limit and
filter components of its own key. -/
def CacheOk (c : List (CacheKey × Nat × List KBResult)) : Prop :=
  ∀ e ∈ c, e.2.2.length ≤ e.1.2.1 ∧ matchesFilter e.1.2.2 e.2.2

/-- Concrete environment whose RPC path always fails, driving every
search through the linear-scan fallback. -/
def fallbackEnv : SearchEnv :=
  ⟨fun q => q, fun _ => .ok [1], fun _ _ => .error (),
    .ok [⟨1, "Fragrance", "d", "High", some [1]⟩]⟩

/-- C1: `_normalize_risk_level` is total: every input (including `None`
and the empty string) yields exactly one of "Low Risk", "Caution",
"High Risk", computed by case-insensitive substring matching in the
order the source tests the keyword groups — "low"+"safe" gives
"Low Risk", otherwise "caution"/"irritat" gives "Caution", otherwise
"high"/"harm" gives "High Risk", and anything unmatched (including the
falsy inputs) defaults to "Caution". -/
theorem normalize_risk_level_total (o : Option String) :
    (normalize_risk_level o = "Low Risk" ∨ normalize_risk_level o = "Caution" ∨
      normalize_risk_level o = "High Risk")
    ∧ (∀ s, o = some s → s ≠ "" →
        ((containsKw s "low" && containsKw s "safe") = true →
            normalize_risk_level o = "Low Risk")
        ∧ ((containsKw s "low" && containsKw s "safe") = false →
            (containsKw s "caution" || containsKw s "irritat") = true →
            normalize_risk_level o = "Caution")
        ∧ ((containsKw s "low" && containsKw s "safe") = false →
            (containsKw s "caution" || containsKw s "irritat") = false →
            (containsKw s "high" || containsKw s "harm") = true →
            normalize_risk_level o = "High Risk")
        ∧ ((containsKw s "low" && containsKw s "safe") = false →
            (containsKw s "caution" || containsKw s "irritat") = false →
            (containsKw s "high" || containsKw s "harm") = false →
            normalize_risk_level o = "Caution"))
    ∧ (o = none → normalize_risk_level o = "Caution")
    ∧ (o = some "" → normalize_risk_level o = "Caution") := by
  cases o with
  | none => simp [normalize_risk_level]
  | some s =>
    by_cases hs : s = ""
    · subst hs
      simp [normalize_risk_level]
    · refine ⟨?_, ?_, ?_, ?_⟩
      · simp only [normalize_risk_level, if_neg hs]
        split
        · exact Or.inl rfl
        · split
          · exact Or.inr (Or.inl rfl)
          · split
            · exact Or.inr (Or.inr rfl)
            · exact Or.inr (Or.inl rfl)
      · intro t ht hne
        injection ht with ht
        subst ht
        refine ⟨?_, ?_, ?_, ?_⟩ <;>
          · intros
            simp_all [normalize_risk_level, if_neg hs]
      · intro h
        exact absurd h (by simp)
      · intro h
        injection h with h
        exact absurd h hs

/-- Evaluation of the totality theorem at a concrete input: the string
"Totally Harmless" contains the keyword "harm" (and none of the
earlier keyword groups), so it normalizes to "High Risk". -/
theorem normalize_risk_level_total_witness :
    normalize_risk_level (some "Totally Harmless") = "High Risk" := by
  have h := (normalize_risk_level_total (some "Totally Harmless")).2.1
    "Totally Harmless" rfl (by decide)
  exact h.2.2.1 (by decide) (by decide) (by decide)

/-- C10: the "caution"/"irritat" keyword group is tested before the
"high"/"harm" group, so a string containing "caution" or "irritat"
(and not both "low" and "safe") normalizes to "Caution" even when it
also contains "high" or "harm" — concretely, "High Risk (Irritating)"
normalizes to "Caution" — and a string containing both "low" and
"safe" normalizes to "Low Risk" regardless of the other keywords. -/
theorem normalize_risk_level_precedence (s : String) :
    ((containsKw s "low" && containsKw s "safe") = true →
        normalize_risk_level (some s) = "Low Risk")
    ∧ ((containsKw s "low" && containsKw s "safe") = false →
        (containsKw s "caution" || containsKw s "irritat") = true →
        normalize_risk_level (some s) = "Caution")
    ∧ normalize_risk_level (some "High Risk (Irritating)") = "Caution" := by
  by_cases hs : s = ""
  · subst hs
    refine ⟨?_, ?_, by decide⟩
    · intro h
      exact absurd h (by decide)
    · intro _ h
      exact absurd h (by decide)
  · refine ⟨?_, ?_, by decide⟩ <;>
      · intros
        simp_all [normalize_risk_level, if_neg hs]

/-- Evaluation of the precedence theorem at the concrete input named by
the claim: "High Risk (Irritating)" contains "irritat" (and not both
"low" and "safe"), hence normalizes to "Caution", not "High Risk". -/
theorem normalize_risk_level_precedence_witness :
    normalize_risk_level (some "High Risk (Irritating)") = "Caution" :=
  (normalize_risk_level_precedence "High Risk (Irritating)").2.1
    (by decide) (by decide)

theorem hasKey_append (d e : List (String × Json)) (k : String) :
    hasKey (d ++ e) k = (hasKey d k || hasKey e k) := by
  simp [hasKey]

theorem hasKey_singleton (k : String) (v : Json) (k2 : String) :
    hasKey [(k, v)] k2 = (k == k2) := by
  simp [hasKey, BEq.comm]

theorem getD_append (d e : List (String × Json)) (k : String) (dflt : Json) :
    getD (d ++ e) k dflt =
      if hasKey d k then getD d k dflt else getD e k dflt := by
  induction d with
  | nil => simp [hasKey]
  | cons p rest ih =>
    by_cases hp : (p.1 == k) = true
    · simp [getD, hasKey, List.find?_cons, hp]
    · have hp2 : (p.1 == k) = false := by simpa using hp
      simp only [List.cons_append, getD, List.find?_cons, hp2, hasKey,
        List.any_cons, Bool.false_or] at *
      simpa [getD, hasKey] using ih

theorem getD_singleton_same (k : String) (v : Json) (dflt : Json) :
    getD [(k, v)] k dflt = v := by
  simp [getD, List.find?_cons]

theorem setKey_of_not_hasKey (d : List (String × Json)) (k : String) (v : Json)
    (h : hasKey d k = false) : setKey d k v = d ++ [(k, v)] := by
  simp [setKey, h]

/-- C2 counterexample: the response text "5" is valid JSON (it parses to
the number 5) and lacks every required key, yet the LLM-assessment step
does not backfill it — the membership test `"overall_risk_level" not in 5`
raises `TypeError`, which the outer handler converts to
`RiskScorerError`. The claim says such a call returns a well-formed
assessment object; instead it raises. -/
theorem generate_llm_assessment_num_raises :
    generate_llm_assessment (.responseText (some (.num 5))) = .error () := rfl

theorem hasKey_nil (k : String) : hasKey ([] : List (String × Json)) k = false := rfl

theorem hasKey_cons (p : String × Json) (rest : List (String × Json)) (k : String) :
    hasKey (p :: rest) k = (p.1 == k || hasKey rest k) := by
  simp [hasKey]

theorem validateAssessment_obj (d : List (String × Json)) :
    validateAssessment (.obj d) = .ok (.obj (backfillKeys d)) := by
  have e1 : (("overall_risk_level" : String) == "explanation") = false := by decide
  have e2 : (("overall_risk_level" : String) == "ingredient_details") = false := by decide
  have e3 : (("explanation" : String) == "ingredient_details") = false := by decide
  by_cases h1 : hasKey d "overall_risk_level" <;>
    by_cases h2 : hasKey d "explanation" <;>
      by_cases h3 : hasKey d "ingredient_details" <;>
        simp [validateAssessment, backfillKeys, pyContains, pySetItem,
          setKey_of_not_hasKey, hasKey_append, hasKey_cons, hasKey_nil,
          h1, h2, h3, e1, e2, e3]

theorem getD_nil (k : String) (dflt : Json) : getD [] k dflt = dflt := rfl

theorem getD_cons (p : String × Json) (rest : List (String × Json))
    (k : String) (dflt : Json) :
    getD (p :: rest) k dflt = if (p.1 == k) = true then p.2 else getD rest k dflt := by
  by_cases hp : (p.1 == k) = true <;> simp [getD, List.find?_cons, hp]

/-- C2 (amended): when the model's response text is not valid JSON, the
LLM-assessment step does not raise and returns the conservative default
assessment; and when the response parses as a JSON **object**, each
missing required key is backfilled field by field with its conservative
default while keys already present keep their values, so the caller
receives an object carrying all three required keys. (The original
claim's backfill guarantee fails for non-object JSON responses — see
the counterexample, where the number 5 raises `RiskScorerError`;
other non-object values can also be returned unrepaired, e.g. a JSON
string containing the three key names as substrings passes every
membership test, so no well-formedness guarantee holds outside
objects.) -/
theorem generate_llm_assessment_defaults :
    (generate_llm_assessment (.responseText none) =
      .ok (.obj [("overall_risk_level", .str "Caution (Irritating)"),
                 ("explanation", .str "Assessment requires manual review"),
                 ("ingredient_details", .arr [])]))
    ∧ ∀ d : List (String × Json),
        generate_llm_assessment (.responseText (some (.obj d))) =
          .ok (.obj (backfillKeys d))
        ∧ hasKey (backfillKeys d) "overall_risk_level" = true
        ∧ hasKey (backfillKeys d) "explanation" = true
        ∧ hasKey (backfillKeys d) "ingredient_details" = true
        ∧ (hasKey d "overall_risk_level" = false →
            getD (backfillKeys d) "overall_risk_level" .null =
              .str "Caution (Irritating)")
        ∧ (hasKey d "explanation" = false →
            getD (backfillKeys d) "explanation" .null =
              .str "Unable to generate detailed explanation")
        ∧ (hasKey d "ingredient_details" = false →
            getD (backfillKeys d) "ingredient_details" .null = .arr [])
        ∧ (∀ k dflt, hasKey d k = true →
            getD (backfillKeys d) k dflt = getD d k dflt) := by
  refine ⟨rfl, ?_⟩
  intro d
  have e1 : (("overall_risk_level" : String) == "explanation") = false := by decide
  have e2 : (("overall_risk_level" : String) == "ingredient_details") = false := by decide
  have e3 : (("explanation" : String) == "ingredient_details") = false := by decide
  by_cases h1 : hasKey d "overall_risk_level" <;>
    by_cases h2 : hasKey d "explanation" <;>
      by_cases h3 : hasKey d "ingredient_details" <;>
      · refine ⟨validateAssessment_obj d, ?_, ?_, ?_, ?_, ?_, ?_, ?_⟩ <;>
          · intros
            simp_all [backfillKeys, hasKey_append, hasKey_cons, hasKey_nil,
              getD_append, getD_cons, getD_nil, e1, e2, e3]

theorem riskyFromItem_typed (item : Json) (h : riskStrTyped item = true) :
    riskyFromItem item = .ok (riskyProj item) := by
  cases item <;> simp [riskyFromItem, riskyProj, riskStrTyped] at h ⊢
  case obj d =>
    cases hg : getD d "risk_level" (.str "") <;> simp [hg] at h ⊢
    case str rl =>
      by_cases hm : containsKw rl "medium" = true ∨ containsKw rl "high" = true <;>
        simp [hm]

theorem extract_risky_eq (details : List Json)
    (h : ∀ j ∈ details, riskStrTyped j = true) :
    extract_risky_ingredients details = .ok (details.filterMap riskyProj) := by
  induction details with
  | nil => rfl
  | cons item rest ih =>
    have hitem : riskStrTyped item = true := h item (by simp)
    have hrest := ih (fun j hj => h j (by simp [hj]))
    cases ho : riskyProj item <;>
      simp [extract_risky_ingredients, riskyFromItem_typed item hitem, ho,
        hrest, List.filterMap_cons]

theorem getD_default_cases (d : List (String × Json)) (k : String)
    (d1 d2 : Json) :
    getD d k d1 = getD d k d2 ∨ (getD d k d1 = d1 ∧ getD d k d2 = d2) := by
  unfold getD
  cases d.find? (fun p => p.1 == k) <;> simp

/-- C4: on ingredient-detail lists whose dict entries carry a string
`risk_level`, the extraction returns (without raising) exactly the
entries whose risk_level case-insensitively contains "medium" or
"high", reshaped to name/risk_level/reason records; every returned
record points back to an input entry whose risk_level matched; and no
returned record has the risk_level "Low". -/
theorem extract_risky_ingredients_spec (details : List Json)
    (h : ∀ j ∈ details, riskStrTyped j = true) :
    extract_risky_ingredients details = .ok (details.filterMap riskyProj)
    ∧ (∀ r ∈ details.filterMap riskyProj, ∃ d rl,
        Json.obj d ∈ details
        ∧ getD d "risk_level" (.str "") = .str rl
        ∧ (containsKw rl "medium" || containsKw rl "high") = true
        ∧ r = .obj [("name", getD d "name" (.str "Unknown")),
                    ("risk_level", getD d "risk_level" (.str "Unknown")),
                    ("reason", getD d "reason" (.str "No details available"))])
    ∧ (∀ r ∈ details.filterMap riskyProj, ∀ flds, r = .obj flds →
        getD flds "risk_level" .null ≠ .str "Low") := by
  have hprov : ∀ r ∈ details.filterMap riskyProj, ∃ d rl,
      Json.obj d ∈ details
      ∧ getD d "risk_level" (.str "") = .str rl
      ∧ (containsKw rl "medium" || containsKw rl "high") = true
      ∧ r = .obj [("name", getD d "name" (.str "Unknown")),
                  ("risk_level", getD d "risk_level" (.str "Unknown")),
                  ("reason", getD d "reason" (.str "No details available"))] := by
    intro r hr
    rw [List.mem_filterMap] at hr
    obtain ⟨a, ha, hfa⟩ := hr
    cases a with
    | null => exact absurd hfa (by simp [riskyProj])
    | bool b => exact absurd hfa (by simp [riskyProj])
    | num n => exact absurd hfa (by simp [riskyProj])
    | str s => exact absurd hfa (by simp [riskyProj])
    | arr xs => exact absurd hfa (by simp [riskyProj])
    | obj d =>
      simp only [riskyProj] at hfa
      rcases hg : getD d "risk_level" (.str "") with _ | b | n | rl | xs | flds2 <;>
        rw [hg] at hfa <;> simp at hfa
      case str =>
        obtain ⟨hm, hx⟩ := hfa
        exact ⟨d, rl, ha, hg, by rcases hm with hm | hm <;> simp [hm], hx.symm⟩
  refine ⟨extract_risky_eq details h, hprov, ?_⟩
  intro r hr flds hfl
  obtain ⟨d, rl, hmem, hg, hm, hr2⟩ := hprov r hr
  rw [hr2] at hfl
  injection hfl with hfl
  have hv : getD flds "risk_level" .null = getD d "risk_level" (.str "Unknown") := by
    rw [← hfl]
    simp [getD_cons, (by decide : (("name" : String) == "risk_level") = false)]
  rw [hv]
  rcases getD_default_cases d "risk_level" (.str "") (.str "Unknown") with hc | ⟨hc1, hc2⟩
  · rw [← hc, hg]
    intro hbad
    injection hbad with hbad
    subst hbad
    exact absurd hm (by decide)
  · rw [hc2]
    intro hbad
    injection hbad with hbad
    exact absurd hbad (by decide)

/-- Evaluation of the extraction theorem on a concrete two-entry list:
the "High" entry is kept and the "Low" entry is dropped. -/
theorem extract_risky_ingredients_spec_witness :
    extract_risky_ingredients
      [.obj [("name", .str "Fragrance"), ("risk_level", .str "High"),
             ("reason", .str "irritant")],
       .obj [("name", .str "Water"), ("risk_level", .str "Low"),
             ("reason", .str "benign")]] =
      .ok [.obj [("name", .str "Fragrance"), ("risk_level", .str "High"),
                 ("reason", .str "irritant")]] := by
  have h := (extract_risky_ingredients_spec
    [.obj [("name", .str "Fragrance"), ("risk_level", .str "High"),
           ("reason", .str "irritant")],
     .obj [("name", .str "Water"), ("risk_level", .str "Low"),
           ("reason", .str "benign")]]
    (by intro j hj; simp only [List.mem_cons, List.not_mem_nil, or_false] at hj
        rcases hj with rfl | rfl <;> rfl)).1
  rw [h]
  rfl

/-- C6 counterexample: a profile whose sensitivities are stored as the
native list ["Nickel", "  "] normalizes to ["Nickel", ""] — the
whitespace-only entry is truthy, so it survives the `if s` filter and
is then stripped to the empty string. The claim says the accessor
returns a list of trimmed **non-empty** strings; the result contains
the empty string. -/
theorem fetch_user_sensitivities_whitespace_entry :
    fetch_user_sensitivities (fun _ => .row (.list ["Nickel", "  "])) "user-1" =
      (["Nickel", ""], true)
    ∧ "" ∈ (fetch_user_sensitivities
        (fun _ => .row (.list ["Nickel", "  "])) "user-1").1 := by
  constructor
  · rfl
  · rw [show (fetch_user_sensitivities
        (fun _ => .row (.list ["Nickel", "  "])) "user-1").1 =
        ["Nickel", ""] from rfl]
    simp

/-- C6 (amended): the sensitivity accessor never fails the pipeline
(it is a total function modelling the catch-all handler): empty and
"anonymous" user ids yield the empty list without querying the store;
any store failure or missing row yields the empty list; a
comma-delimited string normalizes to a list of trimmed non-empty
strings; a native list has falsy (empty-string) elements dropped and
the remaining elements trimmed — whitespace-only entries therefore
become empty strings; and a store failure leaves both orchestrator
entry points behaving exactly as a store that returns no sensitivities
(no exception escapes). -/
theorem fetch_user_sensitivities_graceful (store : String → ProfileOutcome)
    (uid s : String) (xs : List String) :
    (fetch_user_sensitivities store "" = ([], false))
    ∧ (fetch_user_sensitivities store "anonymous" = ([], false))
    ∧ (store uid = .failure → (fetch_user_sensitivities store uid).1 = [])
    ∧ (store uid = .noData → (fetch_user_sensitivities store uid).1 = [])
    ∧ (uid ≠ "" → uid ≠ "anonymous" → store uid = .row (.str s) →
        (fetch_user_sensitivities store uid).1 =
          ((pySplitComma s).map pyStrip).filter (fun x => x ≠ "")
        ∧ ∀ x ∈ (fetch_user_sensitivities store uid).1, x ≠ "")
    ∧ (uid ≠ "" → uid ≠ "anonymous" → store uid = .row (.list xs) →
        (fetch_user_sensitivities store uid).1 =
          (xs.filter (fun x => x ≠ "")).map pyStrip
        ∧ ∀ x ∈ (fetch_user_sensitivities store uid).1, ∃ y ∈ xs, x = pyStrip y)
    ∧ (∀ p p2 : String → ProfileOutcome, ∀ env : ScorerEnv, ∀ u : String,
        p u = .failure → p2 u = .row .other →
        generate_risk_score { env with profile := p } u =
          generate_risk_score { env with profile := p2 } u) := by
  have hfst : ∀ p : String → ProfileOutcome, ∀ u : String,
      p u = .failure ∨ p u = .noData ∨ p u = .row .other →
      (fetch_user_sensitivities p u).1 = [] := by
    intro p u hu
    by_cases hg : u = "" ∨ u = "anonymous"
    · rcases hg with rfl | rfl <;> simp [fetch_user_sensitivities]
    · push_neg at hg
      rcases hu with hu | hu | hu <;>
        simp [fetch_user_sensitivities, hg.1, hg.2, hu]
  refine ⟨by simp [fetch_user_sensitivities],
    by simp [fetch_user_sensitivities], ?_, ?_, ?_, ?_, ?_⟩
  · intro hf
    exact hfst store uid (Or.inl hf)
  · intro hf
    exact hfst store uid (Or.inr (Or.inl hf))
  · intro h1 h2 hf
    have he : (fetch_user_sensitivities store uid).1 =
        ((pySplitComma s).map pyStrip).filter (fun x => x ≠ "") := by
      simp [fetch_user_sensitivities, h1, h2, hf]
    refine ⟨he, ?_⟩
    intro x hx
    rw [he] at hx
    simpa using (List.mem_filter.1 hx).2
  · intro h1 h2 hf
    have he : (fetch_user_sensitivities store uid).1 =
        (xs.filter (fun x => x ≠ "")).map pyStrip := by
      simp [fetch_user_sensitivities, h1, h2, hf]
    refine ⟨he, ?_⟩
    intro x hx
    rw [he] at hx
    obtain ⟨y, hy, hxy⟩ := List.mem_map.1 hx
    exact ⟨y, (List.mem_filter.1 hy).1, hxy.symm⟩
  · intro p p2 env u hp hp2
    have h12 : (fetch_user_sensitivities p u).1 =
        (fetch_user_sensitivities p2 u).1 := by
      rw [hfst p u (Or.inl hp), hfst p2 u (Or.inr (Or.inr hp2))]
    simp only [generate_risk_score]
    rw [h12]

/-- Evaluation of the accessor theorem at concrete inputs: a failing
store yields the empty list for "user-9", and a comma-delimited string
" Nickel , , Soy " normalizes to the trimmed non-empty entries. -/
theorem fetch_user_sensitivities_graceful_witness :
    (fetch_user_sensitivities (fun _ => .failure) "user-9").1 = []
    ∧ (fetch_user_sensitivities
        (fun _ => .row (.str " Nickel , , Soy ")) "user-9").1 =
        ["Nickel", "Soy"] := by
  constructor
  · exact (fetch_user_sensitivities_graceful (fun _ => .failure)
      "user-9" "" []).2.2.1 rfl
  · have h := (fetch_user_sensitivities_graceful
      (fun _ => .row (.str " Nickel , , Soy ")) "user-9" " Nickel , , Soy " []
      ).2.2.2.2.1 (by decide) (by decide) rfl
    rw [h.1]
    rfl

theorem dedupInsert_inv (rs : List KBResult) (acc : List KBResult × List Int)
    (h1 : acc.2 = acc.1.map (fun r => r.id))
    (h2 : (acc.1.map (fun r => r.id)).Nodup) :
    (dedupInsert rs acc).2 = (dedupInsert rs acc).1.map (fun r => r.id)
    ∧ ((dedupInsert rs acc).1.map (fun r => r.id)).Nodup := by
  induction rs generalizing acc with
  | nil => exact ⟨h1, h2⟩
  | cons r rest ih =>
    by_cases hc : r.id ∈ acc.2
    · simpa [dedupInsert, hc] using ih acc h1 h2
    · have hnm : r.id ∉ acc.1.map (fun r => r.id) := by
        rw [← h1]
        exact hc
      have hred : dedupInsert (r :: rest) acc =
          dedupInsert rest (acc.1 ++ [r], acc.2 ++ [r.id]) := by
        simp [dedupInsert, hc]
      rw [hred]
      exact ih (acc.1 ++ [r], acc.2 ++ [r.id])
        (by simp [h1]) (by simp [List.nodup_append, h2, hnm])

theorem dedupInsert_subset (rs : List KBResult) (acc : List KBResult × List Int) :
    ∀ x ∈ (dedupInsert rs acc).1, x ∈ acc.1 ∨ x ∈ rs := by
  induction rs generalizing acc with
  | nil => exact fun x hx => Or.inl hx
  | cons r rest ih =>
    intro x hx
    by_cases hc : r.id ∈ acc.2
    · rw [show dedupInsert (r :: rest) acc = dedupInsert rest acc from by
        simp [dedupInsert, hc]] at hx
      rcases ih acc x hx with h | h
      · exact Or.inl h
      · exact Or.inr (by simp [h])
    · rw [show dedupInsert (r :: rest) acc =
          dedupInsert rest (acc.1 ++ [r], acc.2 ++ [r.id]) from by
        simp [dedupInsert, hc]] at hx
      rcases ih (acc.1 ++ [r], acc.2 ++ [r.id]) x hx with h | h
      · rcases List.mem_append.1 h with h | h
        · exact Or.inl h
        · exact Or.inr (by simp at h; simp [h])
      · exact Or.inr (by simp [h])

theorem search_all_loop_inv (f : String → Nat → Except Unit (List KBResult))
    (names : List String) (acc : List KBResult × List Int)
    (h1 : acc.2 = acc.1.map (fun r => r.id))
    (h2 : (acc.1.map (fun r => r.id)).Nodup) :
    (search_all_ingredients_loop f names acc).2 =
      (search_all_ingredients_loop f names acc).1.map (fun r => r.id)
    ∧ ((search_all_ingredients_loop f names acc).1.map (fun r => r.id)).Nodup := by
  induction names generalizing acc with
  | nil => exact ⟨h1, h2⟩
  | cons ing rest ih =>
    cases hs : f ing 3 with
    | ok rs =>
      simp only [search_all_ingredients_loop, hs]
      obtain ⟨g1, g2⟩ := dedupInsert_inv rs acc h1 h2
      exact ih (dedupInsert rs acc) g1 g2
    | error e =>
      simp only [search_all_ingredients_loop, hs]
      exact ih acc h1 h2

theorem search_all_loop_provenance (f : String → Nat → Except Unit (List KBResult))
    (names : List String) (acc : List KBResult × List Int) :
    ∀ x ∈ (search_all_ingredients_loop f names acc).1,
      x ∈ acc.1 ∨ ∃ ing ∈ names, ∃ rs, f ing 3 = .ok rs ∧ x ∈ rs := by
  induction names generalizing acc with
  | nil => exact fun x hx => Or.inl hx
  | cons ing rest ih =>
    intro x hx
    cases hs : f ing 3 with
    | ok rs =>
      simp only [search_all_ingredients_loop, hs] at hx
      rcases ih (dedupInsert rs acc) x hx with h | ⟨ing2, hi, rs2, hok, hm⟩
      · rcases dedupInsert_subset rs acc x h with h | h
        · exact Or.inl h
        · exact Or.inr ⟨ing, by simp, rs, hs, h⟩
      · exact Or.inr ⟨ing2, by simp [hi], rs2, hok, hm⟩
    | error e =>
      simp only [search_all_ingredients_loop, hs] at hx
      rcases ih acc x hx with h | ⟨ing2, hi, rs2, hok, hm⟩
      · exact Or.inl h
      · exact Or.inr ⟨ing2, by simp [hi], rs2, hok, hm⟩

theorem search_all_loop_skip (f : String → Nat → Except Unit (List KBResult))
    (bad : String) (hbad : f bad 3 = .error ())
    (l1 l2 : List String) (acc : List KBResult × List Int) :
    search_all_ingredients_loop f (l1 ++ bad :: l2) acc =
      search_all_ingredients_loop f (l1 ++ l2) acc := by
  induction l1 generalizing acc with
  | nil => simp [search_all_ingredients_loop, hbad]
  | cons ing rest ih =>
    cases hs : f ing 3 <;>
      simp only [List.cons_append, search_all_ingredients_loop, hs] <;>
        exact ih _

theorem search_all_loop_allfail (f : String → Nat → Except Unit (List KBResult))
    (names : List String) (hfail : ∀ ing ∈ names, f ing 3 = .error ())
    (acc : List KBResult × List Int) :
    search_all_ingredients_loop f names acc = acc := by
  induction names generalizing acc with
  | nil => rfl
  | cons ing rest ih =>
    have h := hfail ing (by simp)
    simp only [search_all_ingredients_loop, h]
    exact ih (fun i hi => hfail i (by simp [hi])) acc

/-- C5: the orchestrator's context-gathering step queries every
ingredient with a per-ingredient cap of 3 and merges the results
deduplicated by knowledge-base id: the output never contains two
entries with the same id; every output entry comes from a successful
limit-3 search of one of the ingredients; a `VectorSearchError` on one
ingredient is non-fatal (deleting that ingredient from the input
leaves the output unchanged); and if every search fails the step
degrades to the empty context list (the function is total — it never
raises). -/
theorem search_all_ingredients_spec
    (f : String → Nat → Except Unit (List KBResult))
    (names l1 l2 : List String) (bad : String) :
    ((search_all_ingredients f names).map (fun r => r.id)).Nodup
    ∧ (∀ x ∈ search_all_ingredients f names,
        ∃ ing ∈ names, ∃ rs, f ing 3 = .ok rs ∧ x ∈ rs)
    ∧ (f bad 3 = .error () →
        search_all_ingredients f (l1 ++ bad :: l2) =
          search_all_ingredients f (l1 ++ l2))
    ∧ ((∀ ing ∈ names, f ing 3 = .error ()) →
        search_all_ingredients f names = []) := by
  refine ⟨?_, ?_, ?_, ?_⟩
  · exact (search_all_loop_inv f names ([], []) rfl (by simp)).2
  · intro x hx
    rcases search_all_loop_provenance f names ([], []) x hx with h | h
    · exact absurd h (by simp)
    · exact h
  · intro hbad
    unfold search_all_ingredients
    rw [search_all_loop_skip f bad hbad l1 l2]
  · intro hfail
    unfold search_all_ingredients
    rw [search_all_loop_allfail f names hfail]

/-- Evaluation of the aggregation theorem at concrete inputs: with a
backend that returns two copies of id 7 for "Aloe" and fails for
"Fragrance", the merged context holds a single id-7 entry and the
failing ingredient changes nothing. -/
theorem search_all_ingredients_spec_witness :
    search_all_ingredients
      (fun ing _ => if ing = "Aloe"
        then .ok [⟨7, "Aloe Vera", "d", "Low", 1⟩, ⟨7, "Aloe Vera", "d", "Low", 1⟩]
        else .error ())
      (["Fragrance"] ++ ["Aloe"]) =
      search_all_ingredients
        (fun ing _ => if ing = "Aloe"
          then .ok [⟨7, "Aloe Vera", "d", "Low", 1⟩, ⟨7, "Aloe Vera", "d", "Low", 1⟩]
          else .error ())
        ([] ++ ["Aloe"])
    ∧ ((search_all_ingredients
        (fun ing _ => if ing = "Aloe"
          then .ok [⟨7, "Aloe Vera", "d", "Low", 1⟩, ⟨7, "Aloe Vera", "d", "Low", 1⟩]
          else .error ())
        (["Fragrance"] ++ ["Aloe"])).map (fun r => r.id)).Nodup := by
  constructor
  · exact (search_all_ingredients_spec
      (fun ing _ => if ing = "Aloe"
        then .ok [⟨7, "Aloe Vera", "d", "Low", 1⟩, ⟨7, "Aloe Vera", "d", "Low", 1⟩]
        else .error ())
      [] [] ["Aloe"] "Fragrance").2.2.1 (by rfl)
  · exact (search_all_ingredients_spec
      (fun ing _ => if ing = "Aloe"
        then .ok [⟨7, "Aloe Vera", "d", "Low", 1⟩, ⟨7, "Aloe Vera", "d", "Low", 1⟩]
        else .error ())
      (["Fragrance"] ++ ["Aloe"]) [] [] "x").1

/-- C3: a failure of the generative-model backend call itself
(`APIError`) raises `RiskScorerError` and propagates out of both
orchestrator entry points with no truncated result: whenever the
pipeline reaches the LLM step (for the image entry point, once OCR
has succeeded), both entry points return the error and nothing else. -/
theorem llm_backend_failure_fatal (env : ScorerEnv) (uid pname : String)
    (pid : Int) (ings scanned : List String)
    (hllm : ∀ i s c, env.llm i s c = .apiFailure) :
    (env.ocr = .ok scanned → generate_risk_score env uid = .error ())
    ∧ generate_risk_score_for_product env pid pname ings uid = .error () := by
  constructor
  · intro hocr
    simp [generate_risk_score, hocr, hllm, generate_llm_assessment]
  · simp [generate_risk_score_for_product, hllm, generate_llm_assessment]

/-- Evaluation of the fatality theorem at a concrete environment whose
generative backend always raises `APIError`: both entry points raise. -/
theorem llm_backend_failure_fatal_witness :
    generate_risk_score
      ⟨.ok ["Cotton"], fun _ => .noData, fun _ _ => .error (),
        fun _ _ _ => .apiFailure⟩ "user-1" = .error ()
    ∧ generate_risk_score_for_product
        ⟨.ok ["Cotton"], fun _ => .noData, fun _ _ => .error (),
          fun _ _ _ => .apiFailure⟩ 42 "SoapCo" ["Cotton"] "user-1" = .error () := by
  have h := llm_backend_failure_fatal
    ⟨.ok ["Cotton"], fun _ => .noData, fun _ _ => .error (),
      fun _ _ _ => .apiFailure⟩ "user-1" "SoapCo" 42 ["Cotton"] ["Cotton"]
    (fun _ _ _ => rfl)
  exact ⟨h.1 rfl, h.2⟩

/-- C9: `_cosine_similarity` never divides by zero: when either
magnitude is zero (or the guard on empty/length-mismatched vectors
fires) the function returns 0.0 without dividing, and the division by
the product of the magnitudes is only reached when both magnitudes are
non-zero — in which case the divisor is itself non-zero. The
floating-point square root is abstracted by an arbitrary `sqrtFn`, so
the statement covers every possible rounding behaviour. -/
theorem cosine_similarity_no_div_by_zero (sqrtFn : ℚ → ℚ) (vec1 vec2 : List ℚ) :
    (magnitude sqrtFn vec1 = 0 ∨ magnitude sqrtFn vec2 = 0 →
        cosine_similarity sqrtFn vec1 vec2 = 0)
    ∧ (magnitude sqrtFn vec1 ≠ 0 → magnitude sqrtFn vec2 ≠ 0 →
        magnitude sqrtFn vec1 * magnitude sqrtFn vec2 ≠ 0
        ∧ (¬(vec1 = [] ∨ vec2 = [] ∨ vec1.length ≠ vec2.length) →
            cosine_similarity sqrtFn vec1 vec2 =
              dot_product vec1 vec2 /
                (magnitude sqrtFn vec1 * magnitude sqrtFn vec2))) := by
  constructor
  · intro h
    unfold cosine_similarity
    by_cases hg : vec1 = [] ∨ vec2 = [] ∨ vec1.length ≠ vec2.length
    · rw [if_pos hg]
    · rw [if_neg hg, if_pos h]
  · intro h1 h2
    refine ⟨mul_ne_zero h1 h2, ?_⟩
    intro hg
    unfold cosine_similarity
    rw [if_neg hg, if_neg (by tauto)]

/-- Evaluation of the guard theorem at concrete inputs: for the zero
vector the similarity is 0, and for [1] against [2] the division branch
is reached with a non-zero divisor (taking the identity as the square
root stand-in). -/
theorem cosine_similarity_no_div_by_zero_witness :
    cosine_similarity (fun q => q) [0] [2] = 0
    ∧ cosine_similarity (fun q => q) [1] [2] =
        dot_product [1] [2] /
          (magnitude (fun q => q) [1] * magnitude (fun q => q) [2]) := by
  constructor
  · exact (cosine_similarity_no_div_by_zero (fun q => q) [0] [2]).1
      (Or.inl (by norm_num [magnitude, sum_sq]))
  · exact ((cosine_similarity_no_div_by_zero (fun q => q) [1] [2]).2
      (by norm_num [magnitude, sum_sq]) (by norm_num [magnitude, sum_sq])).2
      (by norm_num)

theorem lookupCache_mem (c : List (CacheKey × Nat × List KBResult))
    (k : CacheKey) (now : Nat) (v : List KBResult)
    (h : lookupCache c k now = some v) : ∃ t, (k, t, v) ∈ c := by
  unfold lookupCache at h
  cases hf : c.find? (fun e => decide (e.1 = k)) with
  | none => rw [hf] at h; cases h
  | some e =>
    rw [hf] at h
    dsimp only at h
    by_cases ht : now < e.2.1 + 3600
    · rw [if_pos ht] at h
      injection h with h
      obtain ⟨k2, t, rs⟩ := e
      have hk : k2 = k := by simpa using List.find?_some hf
      have hmem := List.mem_of_find?_eq_some hf
      subst hk
      simp only at h
      subst h
      exact ⟨t, hmem⟩
    · rw [if_neg ht] at h
      cases h

theorem find_map_store (c : List (CacheKey × Nat × List KBResult))
    (k : CacheKey) (now : Nat) (v : List KBResult)
    (hex : c.any (fun e => decide (e.1 = k)) = true) :
    (c.map (fun e => if e.1 = k then (k, now, v) else e)).find?
      (fun e => decide (e.1 = k)) = some (k, now, v) := by
  induction c with
  | nil => simp at hex
  | cons e0 rest ih =>
    by_cases h0 : e0.1 = k
    · simp [List.find?_cons, h0]
    · have hex2 : rest.any (fun e => decide (e.1 = k)) = true := by
        simpa [List.any_cons, h0] using hex
      simp [List.find?_cons, h0, ih hex2]

theorem find_append_store (c : List (CacheKey × Nat × List KBResult))
    (k : CacheKey) (now : Nat) (v : List KBResult)
    (hex : c.any (fun e => decide (e.1 = k)) = false) :
    (c ++ [(k, now, v)]).find? (fun e => decide (e.1 = k)) =
      some (k, now, v) := by
  induction c with
  | nil => simp [List.find?_cons]
  | cons e0 rest ih =>
    have h0 : ¬(e0.1 = k) := by
      intro hk
      simp [List.any_cons, hk] at hex
    have hrest : rest.any (fun e => decide (e.1 = k)) = false := by
      simpa [List.any_cons, h0] using hex
    simp [List.find?_cons, h0, ih hrest]

theorem lookupCache_store_hit (c : List (CacheKey × Nat × List KBResult))
    (k : CacheKey) (now now2 : Nat) (v : List KBResult)
    (h : now2 < now + 3600) :
    lookupCache (storeCache c k now v) k now2 = some v := by
  cases hex : c.any (fun e => decide (e.1 = k)) with
  | true =>
    unfold lookupCache storeCache
    rw [if_pos hex, find_map_store c k now v hex]
    simp [h]
  | false =>
    unfold lookupCache storeCache
    rw [if_neg (by simp [hex]), find_append_store c k now v hex]
    simp [h]

theorem CacheOk_store (c : List (CacheKey × Nat × List KBResult))
    (k : CacheKey) (now : Nat) (v : List KBResult)
    (hc : CacheOk c) (hlen : v.length ≤ k.2.1)
    (hm : matchesFilter k.2.2 v) : CacheOk (storeCache c k now v) := by
  intro e he
  cases hex : c.any (fun e2 => decide (e2.1 = k)) with
  | true =>
    unfold storeCache at he
    rw [if_pos hex] at he
    obtain ⟨e0, he0, heq⟩ := List.mem_map.1 he
    by_cases h0 : e0.1 = k
    · rw [if_pos h0] at heq
      subst heq
      exact ⟨hlen, hm⟩
    · rw [if_neg h0] at heq
      subst heq
      exact hc e0 he0
  | false =>
    unfold storeCache at he
    rw [if_neg (by simp [hex])] at he
    rcases List.mem_append.1 he with h | h
    · exact hc e h
    · have : e = (k, now, v) := by simpa using h
      subst this
      exact ⟨hlen, hm⟩

theorem mem_insertDesc (r x : KBResult) (l : List KBResult) :
    x ∈ insertDesc r l → x = r ∨ x ∈ l := by
  induction l with
  | nil =>
    intro h
    simp [insertDesc] at h
    exact Or.inl h
  | cons y ys ih =>
    intro h
    by_cases hc : r.similarity_score ≤ y.similarity_score
    · rw [show insertDesc r (y :: ys) = y :: insertDesc r ys from by
        simp [insertDesc, hc]] at h
      rcases List.mem_cons.1 h with h | h
      · exact Or.inr (by simp [h])
      · rcases ih h with h | h
        · exact Or.inl h
        · exact Or.inr (by simp [h])
    · rw [show insertDesc r (y :: ys) = r :: y :: ys from by
        simp [insertDesc, hc]] at h
      rcases List.mem_cons.1 h with h | h
      · exact Or.inl h
      · exact Or.inr h

theorem mem_sortDesc_aux (l : List KBResult) (acc : List KBResult) (x : KBResult) :
    x ∈ l.foldl (fun acc r => insertDesc r acc) acc → x ∈ acc ∨ x ∈ l := by
  induction l generalizing acc with
  | nil => exact fun h => Or.inl h
  | cons r rest ih =>
    intro h
    rcases ih (insertDesc r acc) h with h | h
    · rcases mem_insertDesc r x acc h with h | h
      · exact Or.inr (by simp [h])
      · exact Or.inl h
    · exact Or.inr (by simp [h])

theorem mem_sortDesc (l : List KBResult) (x : KBResult) :
    x ∈ sortDesc l → x ∈ l := by
  intro h
  rcases mem_sortDesc_aux l [] x h with h | h
  · cases h
  · exact h

theorem fallback_scored_filter (sqrtFn : ℚ → ℚ) (qe : List ℚ)
    (filt : Option String) (rows : List KBRow) (f : String)
    (hf : filt_active filt = some f) :
    ∀ r ∈ fallback_scored sqrtFn qe filt rows, r.risk_level = f := by
  intro r hr
  obtain ⟨row, hrow, heq⟩ := List.mem_filterMap.1 hr
  cases hemb : row.embedding with
  | none => rw [hemb] at heq; cases heq
  | some emb =>
    rw [hemb] at heq
    dsimp only at heq
    by_cases he : emb = []
    · rw [if_pos he] at heq; cases heq
    · rw [if_neg he, hf] at heq
      dsimp only at heq
      by_cases hrl : row.risk_level ≠ f
      · rw [if_pos hrl] at heq; cases heq
      · rw [if_neg hrl] at heq
        injection heq with heq
        rw [← heq]
        simpa using hrl

theorem searchCore_bounds (env : SearchEnv) (now : Nat) (query : String)
    (l : Nat) (filt : Option String) (st : SearchState)
    (hrpc : ∀ emb rs, env.rpc emb l = .ok rs → rs.length ≤ l)
    (hcache : CacheOk st.cache) :
    ∀ rs st2, searchCore env now query l filt st = (.ok rs, st2) →
      rs.length ≤ l ∧ CacheOk st2.cache ∧ matchesFilter filt rs := by
  intro rs st2 hcall
  simp only [searchCore] at hcall
  cases hlook : lookupCache st.cache (query, l, filt) now with
  | some v =>
    rw [hlook] at hcall
    dsimp only at hcall
    injection hcall with h1 h2
    injection h1 with h1
    subst h1
    subst h2
    obtain ⟨t, hmem⟩ := lookupCache_mem _ _ _ _ hlook
    have hk := hcache _ hmem
    exact ⟨hk.1, hcache, hk.2⟩
  | none =>
    rw [hlook] at hcall
    dsimp only at hcall
    cases hembed : env.embed query with
    | error e =>
      rw [hembed] at hcall
      dsimp only at hcall
      injection hcall with h1 h2
      injection h1
    | ok emb =>
      rw [hembed] at hcall
      dsimp only at hcall
      cases hr : env.rpc emb l with
      | ok data =>
        rw [hr] at hcall
        dsimp only at hcall
        cases hfa : filt_active filt with
        | none =>
          rw [hfa] at hcall
          dsimp only at hcall
          by_cases hres : data = []
          · rw [if_pos hres] at hcall
            injection hcall with h1 h2
            injection h1 with h1
            subst h1
            subst h2
            exact ⟨by simp, hcache, by simp [matchesFilter, hfa]⟩
          · rw [if_neg hres] at hcall
            injection hcall with h1 h2
            injection h1 with h1
            subst h1
            subst h2
            refine ⟨hrpc emb data hr, ?_, by simp [matchesFilter, hfa]⟩
            exact CacheOk_store _ _ _ _ hcache (hrpc emb data hr)
              (by simp [matchesFilter, hfa])
        | some fv =>
          rw [hfa] at hcall
          dsimp only at hcall
          by_cases hres : data.filter (fun r => r.risk_level = fv) = []
          · rw [if_pos hres] at hcall
            injection hcall with h1 h2
            injection h1 with h1
            subst h1
            subst h2
            exact ⟨by simp, hcache, by simp [matchesFilter, hfa]⟩
          · rw [if_neg hres] at hcall
            injection hcall with h1 h2
            injection h1 with h1
            subst h1
            subst h2
            have hlen : (data.filter (fun r => r.risk_level = fv)).length ≤ l :=
              le_trans (List.length_filter_le _ _) (hrpc emb data hr)
            have hmf : matchesFilter filt (data.filter (fun r => r.risk_level = fv)) := by
              simp only [matchesFilter, hfa]
              intro r hrm
              simpa using (List.mem_filter.1 hrm).2
            exact ⟨hlen, CacheOk_store _ _ _ _ hcache hlen hmf, hmf⟩
      | error e2 =>
        rw [hr] at hcall
        dsimp only at hcall
        injection hcall with h1 h2
        subst h2
        unfold fallback_search at h1
        cases ht : env.table with
        | error e3 =>
          rw [ht] at h1
          dsimp only at h1
          injection h1
        | ok rows =>
          rw [ht] at h1
          dsimp only at h1
          by_cases hre : rows.isEmpty
          · rw [if_pos hre] at h1
            injection h1 with h1
            subst h1
            exact ⟨by simp, hcache, by cases hfa : filt_active filt <;>
              simp [matchesFilter, hfa]⟩
          · rw [if_neg hre] at h1
            injection h1 with h1
            subst h1
            refine ⟨List.length_take_le _ _, hcache, ?_⟩
            cases hfa : filt_active filt with
            | none => simp [matchesFilter, hfa]
            | some fv =>
              simp only [matchesFilter, hfa]
              intro r hrm
              exact fallback_scored_filter env.sqrtFn emb filt rows fv hfa r
                (mem_sortDesc _ r (List.mem_of_mem_take hrm))

/-- C8: `search_similar_ingredients` is permissive about its
parameters and strict about its results: an out-of-range limit is
replaced by the default 5 (the whole call equals the call with limit
5); a truthy riskFilter outside Low/Medium/High is ignored (the whole
call equals the unfiltered call); and — assuming the Supabase
`search_ingredients` RPC honours its `match_limit` argument and the
cache satisfies its invariant — every successful call returns at most
the effective limit of results, preserves the cache invariant, and,
when a valid filter is set, returns only results whose risk_level
equals it (this covers the RPC path, the fallback path and cache
hits). -/
theorem search_limit_filter_spec (env : SearchEnv) (now : Nat) (query : String)
    (limit : Int) (f : Option String) (st : SearchState)
    (hrpc : ∀ emb l2 rs, env.rpc emb l2 = .ok rs → rs.length ≤ l2)
    (hcache : CacheOk st.cache) :
    ((limit < 1 ∨ 20 < limit) →
        search_similar_ingredients env now query limit f st =
          search_similar_ingredients env now query 5 f st)
    ∧ (∀ fv, fv ≠ "" → fv ≠ "Low" → fv ≠ "Medium" → fv ≠ "High" →
        search_similar_ingredients env now query limit (some fv) st =
          search_similar_ingredients env now query limit none st)
    ∧ (∀ rs st2,
        search_similar_ingredients env now query limit f st = (.ok rs, st2) →
        rs.length ≤ effLimit limit ∧ CacheOk st2.cache
        ∧ (∀ fv r, f = some fv → (fv = "Low" ∨ fv = "Medium" ∨ fv = "High") →
            r ∈ rs → r.risk_level = fv)) := by
  refine ⟨?_, ?_, ?_⟩
  · intro hl
    unfold search_similar_ingredients
    rw [show effLimit limit = 5 from by simp [effLimit, hl],
      show effLimit 5 = 5 from by decide]
  · intro fv h1 h2 h3 h4
    unfold search_similar_ingredients
    rw [show effFilter (some fv) = none from by simp [effFilter, h1, h2, h3, h4],
      show effFilter none = none from rfl]
  · intro rs st2 hcall
    unfold search_similar_ingredients at hcall
    obtain ⟨hlen, hok, hm⟩ := searchCore_bounds env now query (effLimit limit)
      (effFilter f) st (fun emb rs2 h => hrpc emb (effLimit limit) rs2 h)
      hcache rs st2 hcall
    refine ⟨hlen, hok, ?_⟩
    intro fv r hf hvalid hr
    subst hf
    have he : effFilter (some fv) = some fv := by
      rcases hvalid with rfl | rfl | rfl <;> decide
    have ha : filt_active (some fv) = some fv := by
      rcases hvalid with rfl | rfl | rfl <;> decide
    rw [he] at hm
    simp only [matchesFilter, ha] at hm
    exact hm r hr

/-- Evaluation of the limit/filter theorem at a concrete environment:
an out-of-range limit (99) is clamped and the call succeeds with an
empty result list that trivially satisfies the bound. -/
theorem search_limit_filter_spec_witness :
    ([] : List KBResult).length ≤ effLimit 99
    ∧ CacheOk (SearchState.mk [] 1).cache := by
  have h := (search_limit_filter_spec
      ⟨fun q => q, fun _ => .ok [1], fun _ _ => .ok [], .ok []⟩
      0 "Fragrance" 99 none ⟨[], 0⟩
      (by intro emb l2 rs hr
          injection hr with hr
          subst hr
          simp)
      (by intro e he
          exact absurd he (List.not_mem_nil e))).2.2 [] ⟨[], 1⟩ rfl
  exact ⟨h.1, h.2.1⟩

/-- C7 counterexample: in an environment whose RPC path always fails,
a search for "Fragrance" succeeds through the linear-scan fallback,
yet the result cache stays empty, and an identical second call runs
embedding generation again (the call counter reaches 2) instead of
hitting the cache. The claim says the final result list is cached
"including results produced by the linear-scan fallback path" and that
the second identical call skips embedding generation — the code only
caches on the (non-empty) RPC path. -/
theorem search_fallback_not_cached :
    (search_similar_ingredients fallbackEnv 0 "Fragrance" 5 none ⟨[], 0⟩).1 =
      .ok [⟨1, "Fragrance", "d", "High", 1⟩]
    ∧ (search_similar_ingredients fallbackEnv 0 "Fragrance" 5 none ⟨[], 0⟩).2.cache = []
    ∧ (search_similar_ingredients fallbackEnv 0 "Fragrance" 5 none
        (search_similar_ingredients fallbackEnv 0 "Fragrance" 5 none
          ⟨[], 0⟩).2).2.embed_calls = 2 := by
  refine ⟨?_, rfl, rfl⟩
  with_unfolding_all rfl

/-- C7 (amended): the result cache is keyed by the validated
(query, limit, riskFilter) triple with a 1-hour TTL, but only the RPC
path stores into it, and only non-empty result lists: a live cache
entry is returned as-is with no embedding call and no state change; a
cache miss that succeeds through the RPC path with a non-empty
(post-filter) list stores that list under the key, and an identical
call within the TTL then returns exactly the cached list without a
further embedding call; an RPC failure (the fallback path) leaves the
cache unchanged while still consuming an embedding call. -/
theorem search_cache_rpc_only (env : SearchEnv) (now now2 : Nat)
    (query : String) (limit : Int) (f : Option String) (st : SearchState)
    (emb : List ℚ) (data : List KBResult) :
    (∀ v, lookupCache st.cache (effKey query limit f) now = some v →
        search_similar_ingredients env now query limit f st = (.ok v, st))
    ∧ (lookupCache st.cache (effKey query limit f) now = none →
        env.embed query = .ok emb →
        env.rpc emb (effLimit limit) = .ok data →
        ∀ results, results = (match filt_active (effFilter f) with
            | some fv => data.filter (fun r => r.risk_level = fv)
            | none => data) →
        results ≠ [] →
        search_similar_ingredients env now query limit f st =
          (.ok results,
            ⟨storeCache st.cache (effKey query limit f) now results,
              st.embed_calls + 1⟩)
        ∧ (now2 < now + 3600 →
            search_similar_ingredients env now2 query limit f
              ⟨storeCache st.cache (effKey query limit f) now results,
                st.embed_calls + 1⟩ =
              (.ok results,
                ⟨storeCache st.cache (effKey query limit f) now results,
                  st.embed_calls + 1⟩)))
    ∧ (lookupCache st.cache (effKey query limit f) now = none →
        env.embed query = .ok emb →
        env.rpc emb (effLimit limit) = .error () →
        (search_similar_ingredients env now query limit f st).2.cache = st.cache
        ∧ (search_similar_ingredients env now query limit f st).2.embed_calls =
            st.embed_calls + 1) := by
  have hhit : ∀ (st3 : SearchState) (n : Nat) (v : List KBResult),
      lookupCache st3.cache (effKey query limit f) n = some v →
      search_similar_ingredients env n query limit f st3 = (.ok v, st3) := by
    intro st3 n v hl
    have hl2 : lookupCache st3.cache (query, effLimit limit, effFilter f) n =
        some v := hl
    simp only [search_similar_ingredients, searchCore]
    rw [hl2]
  refine ⟨fun v hl => hhit st now v hl, ?_, ?_⟩
  · intro hmiss hemb hrpc results hres hne
    have hmiss2 : lookupCache st.cache (query, effLimit limit, effFilter f) now =
        none := hmiss
    have hcall : search_similar_ingredients env now query limit f st =
        (.ok results,
          ⟨storeCache st.cache (effKey query limit f) now results,
            st.embed_calls + 1⟩) := by
      simp only [search_similar_ingredients, searchCore]
      rw [hmiss2]
      dsimp only
      rw [hemb]
      dsimp only
      rw [hrpc]
      dsimp only
      rw [← hres, if_neg hne]
      exact rfl
    refine ⟨hcall, fun httl => ?_⟩
    apply hhit
    show lookupCache (storeCache st.cache (effKey query limit f) now results)
      (effKey query limit f) now2 = some results
    exact lookupCache_store_hit _ _ _ _ _ httl
  · intro hmiss hemb hrpc
    have hmiss2 : lookupCache st.cache (query, effLimit limit, effFilter f) now =
        none := hmiss
    have hcall : search_similar_ingredients env now query limit f st =
        (fallback_search env.sqrtFn env.table emb (effLimit limit) (effFilter f),
          ⟨st.cache, st.embed_calls + 1⟩) := by
      simp only [search_similar_ingredients, searchCore]
      rw [hmiss2]
      dsimp only
      rw [hemb]
      dsimp only
      rw [hrpc]
    rw [hcall]
    exact ⟨rfl, rfl⟩

/-- Evaluation of the caching theorem at a concrete environment whose
RPC path returns one "High" entry: the first call stores the list and
a second identical call one second later returns it from the cache. -/
theorem search_cache_rpc_only_witness :
    search_similar_ingredients
      ⟨fun q => q, fun _ => .ok [1],
        fun _ _ => .ok [⟨3, "Fragrance", "d", "High", 1⟩], .ok []⟩
      1 "Fragrance" 5 none
      ⟨storeCache [] (effKey "Fragrance" 5 none) 0
        [⟨3, "Fragrance", "d", "High", 1⟩], 1⟩ =
      (.ok [⟨3, "Fragrance", "d", "High", 1⟩],
        ⟨storeCache [] (effKey "Fragrance" 5 none) 0
          [⟨3, "Fragrance", "d", "High", 1⟩], 1⟩) := by
  have h := (search_cache_rpc_only
      ⟨fun q => q, fun _ => .ok [1],
        fun _ _ => .ok [⟨3, "Fragrance", "d", "High", 1⟩], .ok []⟩
      0 1 "Fragrance" 5 none ⟨[], 0⟩ [1]
      [⟨3, "Fragrance", "d", "High", 1⟩]).2.1
    rfl rfl rfl [⟨3, "Fragrance", "d", "High", 1⟩] rfl (by simp)
  exact h.2 (by norm_num)

/-- Evaluation of the backfill theorem at a concrete object that only
carries "explanation": the call succeeds and the missing
overall_risk_level is backfilled with "Caution (Irritating)". -/
theorem generate_llm_assessment_defaults_witness :
    generate_llm_assessment
      (.responseText (some (.obj [("explanation", Json.str "fine")]))) =
      .ok (.obj (backfillKeys [("explanation", Json.str "fine")]))
    ∧ getD (backfillKeys [("explanation", Json.str "fine")])
        "overall_risk_level" .null = .str "Caution (Irritating)" := by
  have h := generate_llm_assessment_defaults.2 [("explanation", Json.str "fine")]
  exact ⟨h.1, h.2.2.2.2.1 (by decide)⟩
